import Mathlib

set_option maxRecDepth 10000

/-
Verification of the SupportOps Automator rule engine and webhook
signature verification (backend/services/rule_engine.py,
backend/modules/freshdesk/webhook.py, backend/modules/zendesk/webhook.py,
backend/middleware.py) against its natural-language specification.

The Python code is shallowly embedded: JSON-ish scalar values become the
inductive `Value`; dict payloads become association lists; exceptions that
Python comparison operators can raise become `Except`; the database session
becomes an explicit list of rules inside an `EngineState`; the external
action layer (dynamic module dispatch, HTTP calls) becomes an environment
function `Action -> Except String Value`.
-/

namespace SupportOps

/-- Value models the Python scalar values that appear in webhook payloads and
rule conditions: None, bool, int, str, and lists of strings (tags).
Python floats are modelled by integers (the source only ever compares
numeric payload fields such as priorities and ids). -/
inductive Value where
  | vNull : Value
  | vBool : Bool → Value
  | vInt : Int → Value
  | vStr : String → Value
  | vStrList : List String → Value
deriving DecidableEq, Repr

/-- asNum models Python `isinstance(x, (int, float))` together with numeric
coercion: Python bools are instances of int (True == 1, False == 0). -/
def asNum : Value → Option Int
  | Value.vInt n => some n
  | Value.vBool b => some (if b then 1 else 0)
  | _ => none

/-- pyEq models Python `==` on the embedded values: numeric values (ints and
bools) compare by numeric value, other values compare within their own type,
and values of different kinds are unequal. -/
def pyEq (a b : Value) : Bool :=
  match a, b with
  | Value.vNull, Value.vNull => true
  | Value.vStr s, Value.vStr t => s == t
  | Value.vStrList l, Value.vStrList m => l == m
  | x, y =>
    match asNum x, asNum y with
    | some m, some n => m == n
    | _, _ => false

/-- Single-quote character (Python repr of strings uses it). -/
def sq : Char := Char.ofNat 39

/-- pyReprStr models Python `repr` of a string as it appears inside
`str()` of a list: the string wrapped in single quotes. -/
def pyReprStr (s : String) : String :=
  String.mk (sq :: s.data ++ [sq])

/-- joinComma interleaves ", " between rendered list elements,
as Python `str()` does for lists. -/
def joinComma : List String → String
  | [] => ""
  | [s] => s
  | s :: rest => s ++ ", " ++ joinComma rest

/-- pyStr models Python `str()` on the embedded values. -/
def pyStr : Value → String
  | Value.vNull => "None"
  | Value.vBool true => "True"
  | Value.vBool false => "False"
  | Value.vInt n => toString n
  | Value.vStr s => s
  | Value.vStrList l => "[" ++ joinComma (l.map pyReprStr) ++ "]"

/-- listHasPre decides whether the first list is a leading segment of the
second (used to model Python substring tests). -/
def listHasPre : List Char → List Char → Bool
  | [], _ => true
  | _ :: _, [] => false
  | a :: as_, b :: bs => a == b && listHasPre as_ bs

/-- listHasSub decides whether the first list occurs contiguously inside
the second. -/
def listHasSub (needle : List Char) : List Char → Bool
  | [] => listHasPre needle []
  | b :: bs => listHasPre needle (b :: bs) || listHasSub needle bs

/-- strHasSub models Python `needle in hay` on strings. -/
def strHasSub (needle hay : String) : Bool :=
  listHasSub needle.data hay.data

/-- strStarts models Python `str.startswith`. -/
def strStarts (s pre : String) : Bool :=
  listHasPre pre.data s.data

/-- strEnds models Python `str.endswith`. -/
def strEnds (s suf : String) : Bool :=
  listHasPre suf.data.reverse s.data.reverse

/-- pyIn models Python `value in str(actual)`: it raises TypeError when the
left operand is not a string. -/
def pyIn (needle : Value) (hay : String) : Except String Bool :=
  match needle with
  | Value.vStr s => Except.ok (strHasSub s hay)
  | _ => Except.error "TypeError: in requires string as left operand"

/-- pyGtNum models Python `actual > value` for a numeric left operand: it
raises TypeError when the right operand is not numeric. -/
def pyGtNum (m : Int) (v : Value) : Except String Bool :=
  match asNum v with
  | some n => Except.ok (decide (m > n))
  | none => Except.error "TypeError: unorderable types"

/-- pyLtNum models Python `actual < value` for a numeric left operand. -/
def pyLtNum (m : Int) (v : Value) : Except String Bool :=
  match asNum v with
  | some n => Except.ok (decide (m < n))
  | none => Except.error "TypeError: unorderable types"

/-- CondValue is one entry of a rule's `trigger_conditions` map: either a
literal (plain equality) or a dict `{"operator": ..., "value": ...}`;
a missing "operator" key is `none` (the code defaults it to "equals"),
a missing "value" key is Python None, written `Value.vNull`. -/
inductive CondValue where
  | lit : Value → CondValue
  | opd : Option String → Value → CondValue
deriving DecidableEq, Repr

/-- Payload is the flat event field map the engine compares conditions
against (a Python dict, embedded as an association list). -/
abbrev Payload := List (String × Value)

/-- lookupP models Python `key in payload` / `payload[key]`. -/
def lookupP : Payload → String → Option Value
  | [], _ => none
  | (k, v) :: rest, key => if k == key then some v else lookupP rest key

/-- condHolds evaluates one condition entry against the event value found in
the payload, mirroring the operator dispatch in
`RuleEngine._evaluate_conditions` (rule_engine.py lines 130-156); an
operator the chain does not recognize falls through every elif, so the
entry imposes no constraint and trivially holds. -/
def condHolds (actual : Value) : CondValue → Except String Bool
  | CondValue.lit v => Except.ok (pyEq actual v)
  | CondValue.opd oper v =>
    let operator := oper.getD "equals"
    if operator == "equals" then Except.ok (pyEq actual v)
    else if operator == "contains" then pyIn v (pyStr actual)
    else if operator == "starts_with" then
      Except.ok (strStarts (pyStr actual) (pyStr v))
    else if operator == "ends_with" then
      Except.ok (strEnds (pyStr actual) (pyStr v))
    else if operator == "greater_than" then
      match asNum actual with
      | some m => pyGtNum m v
      | none => Except.ok false
    else if operator == "less_than" then
      match asNum actual with
      | some m => pyLtNum m v
      | none => Except.ok false
    else Except.ok true

/-- Conditions is a rule's `trigger_conditions` dict, embedded as an
association list in insertion order. -/
abbrev Conditions := List (String × CondValue)

/-- evalConditionsCore is the body of the `try` block of
`RuleEngine._evaluate_conditions` (rule_engine.py lines 117-158): an empty
map matches, a key missing from the payload is an immediate non-match, a
failing check is an immediate non-match, and a Python TypeError raised by a
comparison propagates as `Except.error`. -/
def evalConditionsCore : Conditions → Payload → Except String Bool
  | [], _ => Except.ok true
  | (k, cv) :: rest, p =>
    match lookupP p k with
    | none => Except.ok false
    | some actual =>
      match condHolds actual cv with
      | Except.error e => Except.error e
      | Except.ok false => Except.ok false
      | Except.ok true => evalConditionsCore rest p

/-- evaluate_conditions is `RuleEngine._evaluate_conditions` itself: the
surrounding `except Exception` turns any raised error into a non-match. -/
def evaluate_conditions (c : Conditions) (p : Payload) : Bool :=
  match evalConditionsCore c p with
  | Except.ok b => b
  | Except.error _ => false

/-- RuleStatus is the `RuleStatus` enum of models/rule.py. -/
inductive RuleStatus where
  | active : RuleStatus
  | inactive : RuleStatus
  | draft : RuleStatus
  | archived : RuleStatus
deriving DecidableEq, Repr

/-- Action is one entry of a rule's `actions` JSON list; the code only reads
the "platform" and "type" keys (`action.get("platform")`,
`action.get("type")`), so the remaining free-form parameter map is kept
opaque as `params`. -/
structure Action where
  platform : Option String
  actionType : Option String
  params : List (String × Value)
deriving DecidableEq, Repr

/-- Rule embeds the columns of the `rules` table (models/rule.py) that the
rule engine reads or writes. Timestamps are seconds as integers. -/
structure Rule where
  id : Nat
  user_id : Nat
  status : RuleStatus
  is_enabled : Bool
  trigger_platform : String
  trigger_event : String
  trigger_conditions : Conditions
  actions : List Action
  max_executions_per_hour : Nat
  execution_count : Nat
  last_executed_at : Option Int
  last_execution_status : Option String
  last_execution_error : Option String
  deleted_at : Option Int
deriving DecidableEq, Repr

/-- check_rate_limit is `RuleEngine._check_rate_limit` (rule_engine.py lines
164-185): `one_hour_ago = now - 1 hour`; if the rule has a truthy
`last_executed_at` newer than that, it is rejected when its lifetime
`execution_count` has reached `max_executions_per_hour`; otherwise it is
allowed. No expression in the body can raise, so the `except` branch is
dead and is not modelled. -/
def check_rate_limit (rule : Rule) (now : Int) : Bool :=
  match rule.last_executed_at with
  | some t =>
    if t > now - 3600 then
      if rule.execution_count ≥ rule.max_executions_per_hour then false
      else true
    else true
  | none => true

/-- ruleMatchesTrigger is the WHERE clause of the rule query in
`RuleEngine._find_matching_rules` (rule_engine.py lines 83-93). -/
def ruleMatchesTrigger (r : Rule) (platform event : String) : Bool :=
  r.trigger_platform == platform && r.trigger_event == event &&
    r.status == RuleStatus.active && r.is_enabled && r.deleted_at == none

/-- find_matching_rules is `RuleEngine._find_matching_rules` (rule_engine.py
lines 73-109): the database session is embedded as the list of all rule
rows; the selected rows are then kept only if the conditions match and the
rate limit allows (in that order, as in the source loop). -/
def find_matching_rules (db : List Rule) (platform event : String)
    (payload : Payload) (now : Int) : List Rule :=
  (db.filter (fun r => ruleMatchesTrigger r platform event)).filter
    (fun r => evaluate_conditions r.trigger_conditions payload &&
      check_rate_limit r now)

/-- ActionRecord is one element of the `actions_executed` list built by
`RuleEngine._execute_rule` (rule_engine.py lines 214-231): the success
branch stores `{"action", "result", "status": "success"}`, the except
branch stores `{"action", "error", "status": "failed"}`. -/
structure ActionRecord where
  action : Action
  status : String
  result : Option Value
  error : Option String
deriving DecidableEq, Repr

/-- RuleExecution embeds the `RuleExecution` tracking model (models/rule.py):
the execution id is drawn from a fresh-id supply standing in for uuid4. -/
structure RuleExecution where
  rule_id : Nat
  trigger_data : Payload
  execution_id : Nat
  started_at : Int
  completed_at : Option Int
  status : String
  error_message : Option String
  actions_executed : List ActionRecord
deriving DecidableEq, Repr

/-- EngineState is the mutable state `RuleEngine` methods touch: the
in-process `execution_cache` dict, the uuid supply, and the rules table of
the database session. -/
structure EngineState where
  execution_cache : List (Nat × RuleExecution)
  nextId : Nat
  db : List Rule
deriving Repr

/-- Env is the external world `_execute_rule` interacts with: `execAction`
is the whole of `_execute_action` (integration lookup, dynamic module
dispatch, the third-party API call), which either returns a result value or
raises; `postFailure rid` injects an exception into the rule-statistics
update / audit bookkeeping that follows the action loop for rule `rid`
(rule_engine.py lines 239-267), `none` meaning that bookkeeping succeeds. -/
structure Env where
  execAction : Action → Except String Value
  postFailure : Nat → Option String

/-- lookupA models Python dict lookup on the execution cache. -/
def lookupA : List (Nat × RuleExecution) → Nat → Option RuleExecution
  | [], _ => none
  | (k, v) :: rest, i => if k == i then some v else lookupA rest i

/-- eraseA models Python `del cache[id]`: every binding of the key is
removed. -/
def eraseA : List (Nat × RuleExecution) → Nat → List (Nat × RuleExecution)
  | [], _ => []
  | (a, v) :: rest, k =>
    if a == k then eraseA rest k else (a, v) :: eraseA rest k

/-- updateRule models `session.execute(update(Rule).where(Rule.id == rid)
.values(...))`: every row with the given id is rewritten. -/
def updateRule (db : List Rule) (rid : Nat) (f : Rule → Rule) : List Rule :=
  db.map (fun r => if r.id == rid then f r else r)

/-- lookupRule models `select(Rule).where(Rule.id == rid)` returning the
first matching row. -/
def lookupRule : List Rule → Nat → Option Rule
  | [], _ => none
  | r :: rest, rid => if r.id == rid then some r else lookupRule rest rid

/-- runActions is the action loop of `RuleEngine._execute_rule`
(rule_engine.py lines 214-231): every action is attempted in list order,
each attempt is individually wrapped in try/except, and one record is
appended per attempt. -/
def runActions (execAction : Action → Except String Value) :
    List Action → List ActionRecord
  | [] => []
  | a :: rest =>
    (match execAction a with
     | Except.ok r =>
       { action := a, status := "success", result := some r, error := none }
     | Except.error e =>
       { action := a, status := "failed", result := none, error := some e }) ::
    runActions execAction rest

/-- ExecOutcome packages what one `_execute_rule` call produces: the return
value (an execution id on success, None when the bookkeeping raised), the
finalized RuleExecution object, and the engine state afterwards. -/
structure ExecOutcome where
  returnedId : Option Nat
  execution : RuleExecution
  state : EngineState

/-- execute_rule is `RuleEngine._execute_rule` (rule_engine.py lines
187-307). A fresh execution id is drawn; a `status="running"` record is
stored in the cache; every action is attempted (the loop itself never
raises); the record is then finalized with `status="completed"` and the
per-action results. If the subsequent statistics update succeeds the rule
row gets `execution_count + 1`, `last_executed_at = now`,
`last_execution_status = "success"` and the id is returned; if it raises,
the except branch writes `last_execution_status = "failed"` with the error
and returns None. The `finally` block deletes the cache entry on every
path. -/
def execute_rule (env : Env) (st : EngineState) (rule : Rule)
    (trigger_data : Payload) (now : Int) : ExecOutcome :=
  let execId := st.nextId
  let running : RuleExecution :=
    { rule_id := rule.id, trigger_data := trigger_data,
      execution_id := execId, started_at := now,
      completed_at := none, status := "running", error_message := none,
      actions_executed := [] }
  let cache1 := (execId, running) :: st.execution_cache
  let recs := runActions env.execAction rule.actions
  let finalized : RuleExecution :=
    { running with
        completed_at := some now
        status := "completed"
        actions_executed := recs }
  match env.postFailure rule.id with
  | none =>
    let db1 := updateRule st.db rule.id (fun r =>
      { r with
          execution_count := rule.execution_count + 1
          last_executed_at := some now
          last_execution_status := some "success" })
    { returnedId := some execId, execution := finalized,
      state := { execution_cache := eraseA cache1 execId,
                 nextId := st.nextId + 1, db := db1 } }
  | some e =>
    let db1 := updateRule st.db rule.id (fun r =>
      { r with
          last_execution_status := some "failed"
          last_execution_error := some e })
    { returnedId := none, execution := finalized,
      state := { execution_cache := eraseA cache1 execId,
                 nextId := st.nextId + 1, db := db1 } }

/-- execList is the rule loop of `RuleEngine.process_trigger` (rule_engine.py
lines 59-67): each matched rule is executed in order and the ids of the
executions whose bookkeeping succeeded are collected. -/
def execList (env : Env) (payload : Payload) (now : Int) :
    List Rule → EngineState → List Nat × EngineState
  | [], st => ([], st)
  | r :: rest, st =>
    let out := execute_rule env st r payload now
    let res := execList env payload now rest out.state
    match out.returnedId with
    | some i => (i :: res.1, res.2)
    | none => res

/-- process_trigger is `RuleEngine.process_trigger` (rule_engine.py lines
28-71): find the matching rules against the current state, execute each,
return the execution ids. -/
def process_trigger (env : Env) (st : EngineState) (platform event : String)
    (payload : Payload) (now : Int) : List Nat × EngineState :=
  execList env payload now (find_matching_rules st.db platform event payload now) st

/-- get_execution_status is `RuleEngine.get_execution_status` (rule_engine.py
lines 389-391): a plain cache lookup. -/
def get_execution_status (st : EngineState) (execution_id : Nat) :
    Option RuleExecution :=
  lookupA st.execution_cache execution_id

/-- w32 truncates to a 32-bit word. -/
def w32 (n : Nat) : Nat := n % 4294967296

/-- add32 is 32-bit wrap-around addition. -/
def add32 (a b : Nat) : Nat := (a + b) % 4294967296

/-- rotr is 32-bit right rotation (inputs below 2^32). -/
def rotr (n a : Nat) : Nat := w32 ((a >>> n) ||| (a <<< (32 - n)))

/-- not32 is 32-bit bitwise complement (inputs below 2^32). -/
def not32 (a : Nat) : Nat := Nat.xor a 4294967295

/-- chF is the SHA-256 Ch function. -/
def chF (x y z : Nat) : Nat := Nat.xor (Nat.land x y) (Nat.land (not32 x) z)

/-- majF is the SHA-256 Maj function. -/
def majF (x y z : Nat) : Nat :=
  Nat.xor (Nat.land x y) (Nat.xor (Nat.land x z) (Nat.land y z))

/-- bigSigma0 is the SHA-256 Σ0 function. -/
def bigSigma0 (x : Nat) : Nat :=
  Nat.xor (rotr 2 x) (Nat.xor (rotr 13 x) (rotr 22 x))

/-- bigSigma1 is the SHA-256 Σ1 function. -/
def bigSigma1 (x : Nat) : Nat :=
  Nat.xor (rotr 6 x) (Nat.xor (rotr 11 x) (rotr 25 x))

/-- smallSigma0 is the SHA-256 σ0 function. -/
def smallSigma0 (x : Nat) : Nat :=
  Nat.xor (rotr 7 x) (Nat.xor (rotr 18 x) (x >>> 3))

/-- smallSigma1 is the SHA-256 σ1 function. -/
def smallSigma1 (x : Nat) : Nat :=
  Nat.xor (rotr 17 x) (Nat.xor (rotr 19 x) (x >>> 10))

/-- K256 is the SHA-256 round-constant table. -/
def K256 : List Nat :=
  [1116352408, 1899447441, 3049323471, 3921009573,
   961987163, 1508970993, 2453635748, 2870763221,
   3624381080, 310598401, 607225278, 1426881987,
   1925078388, 2162078206, 2614888103, 3248222580,
   3835390401, 4022224774, 264347078, 604807628,
   770255983, 1249150122, 1555081692, 1996064986,
   2554220882, 2821834349, 2952996808, 3210313671,
   3336571891, 3584528711, 113926993, 338241895,
   666307205, 773529912, 1294757372, 1396182291,
   1695183700, 1986661051, 2177026350, 2456956037,
   2730485921, 2820302411, 3259730800, 3345764771,
   3516065817, 3600352804, 4094571909, 275423344,
   430227734, 506948616, 659060556, 883997877,
   958139571, 1322822218, 1537002063, 1747873779,
   1955562222, 2024104815, 2227730452, 2361852424,
   2428436474, 2756734187, 3204031479, 3329325298]

/-- Hash8 is the eight-word SHA-256 working state. -/
structure Hash8 where
  a : Nat
  b : Nat
  c : Nat
  d : Nat
  e : Nat
  f : Nat
  g : Nat
  h : Nat
deriving DecidableEq, Repr

/-- sha256Init is the SHA-256 initial hash state. -/
def sha256Init : Hash8 :=
  { a := 1779033703, b := 3144134277, c := 1013904242, d := 2773480762,
    e := 1359893119, f := 2600822924, g := 528734635, h := 1541459225 }

/-- schedW computes the next message-schedule word from the previous ones. -/
def schedW (ws : List Nat) : Nat :=
  add32 (smallSigma1 (ws.getD (ws.length - 2) 0))
    (add32 (ws.getD (ws.length - 7) 0)
      (add32 (smallSigma0 (ws.getD (ws.length - 15) 0))
        (ws.getD (ws.length - 16) 0)))

/-- schedAux extends the 16-word block to the 64-word message schedule. -/
def schedAux : Nat → List Nat → List Nat
  | 0, ws => ws
  | n + 1, ws => schedAux n (ws ++ [schedW ws])

/-- sha256Round is one SHA-256 compression round. -/
def sha256Round (st : Hash8) (k w : Nat) : Hash8 :=
  let t1 := add32 st.h (add32 (bigSigma1 st.e)
    (add32 (chF st.e st.f st.g) (add32 k w)))
  let t2 := add32 (bigSigma0 st.a) (majF st.a st.b st.c)
  { a := add32 t1 t2, b := st.a, c := st.b, d := st.c,
    e := add32 st.d t1, f := st.e, g := st.f, h := st.g }

/-- sha256Rounds folds the 64 rounds over the (constant, schedule) pairs. -/
def sha256Rounds : Hash8 → List (Nat × Nat) → Hash8
  | st, [] => st
  | st, (k, w) :: rest => sha256Rounds (sha256Round st k w) rest

/-- compressBlock runs the SHA-256 compression function on one 16-word
block and adds the result into the chaining state. -/
def compressBlock (st : Hash8) (block : List Nat) : Hash8 :=
  let r := sha256Rounds st (List.zip K256 (schedAux 48 block))
  { a := add32 st.a r.a, b := add32 st.b r.b, c := add32 st.c r.c,
    d := add32 st.d r.d, e := add32 st.e r.e, f := add32 st.f r.f,
    g := add32 st.g r.g, h := add32 st.h r.h }

/-- compressAll consumes the padded word stream sixteen words at a time. -/
def compressAll : Hash8 → List Nat → Hash8
  | st, w1 :: w2 :: w3 :: w4 :: w5 :: w6 :: w7 :: w8 ::
        w9 :: w10 :: w11 :: w12 :: w13 :: w14 :: w15 :: w16 :: rest =>
    compressAll (compressBlock st
      [w1, w2, w3, w4, w5, w6, w7, w8,
       w9, w10, w11, w12, w13, w14, w15, w16]) rest
  | st, _ => st

/-- lenBytes8 renders a bit length as eight big-endian bytes. -/
def lenBytes8 (n : Nat) : List Nat :=
  [(n >>> 56) % 256, (n >>> 48) % 256, (n >>> 40) % 256, (n >>> 32) % 256,
   (n >>> 24) % 256, (n >>> 16) % 256, (n >>> 8) % 256, n % 256]

/-- padBytes is SHA-256 message padding: a 0x80 byte, zeros to 56 mod 64,
then the 64-bit big-endian bit length. -/
def padBytes (msg : List Nat) : List Nat :=
  msg ++ 128 :: List.replicate ((119 - msg.length % 64) % 64) 0 ++
    lenBytes8 (8 * msg.length)

/-- bytesToWords packs big-endian bytes into 32-bit words. -/
def bytesToWords : List Nat → List Nat
  | b0 :: b1 :: b2 :: b3 :: rest =>
    (((b0 * 256 + b1) * 256 + b2) * 256 + b3) :: bytesToWords rest
  | _ => []

/-- wordBytes unpacks one 32-bit word into big-endian bytes. -/
def wordBytes (n : Nat) : List Nat :=
  [(n >>> 24) % 256, (n >>> 16) % 256, (n >>> 8) % 256, n % 256]

/-- sha256Bytes is the SHA-256 digest (32 bytes) of a byte list, modelling
Python `hashlib.sha256(msg).digest()`. -/
def sha256Bytes (msg : List Nat) : List Nat :=
  let st := compressAll sha256Init (bytesToWords (padBytes msg))
  wordBytes st.a ++ wordBytes st.b ++ wordBytes st.c ++ wordBytes st.d ++
    wordBytes st.e ++ wordBytes st.f ++ wordBytes st.g ++ wordBytes st.h

/-- hexDigit is the lowercase hex digit for a value below 16. -/
def hexDigit (n : Nat) : Char :=
  Char.ofNat (if n < 10 then 48 + n else 87 + n)

/-- bytesHex is lowercase hex encoding, modelling Python `.hexdigest()`. -/
def bytesHex (bs : List Nat) : String :=
  String.mk ((bs.map (fun b => [hexDigit (b / 16), hexDigit (b % 16)])).flatten)

/-- hmacSha256 is HMAC-SHA256 over byte lists, modelling Python
`hmac.new(key, msg, hashlib.sha256).digest()` (block size 64). -/
def hmacSha256 (key msg : List Nat) : List Nat :=
  let k0 := if key.length > 64 then sha256Bytes key else key
  let kp := k0 ++ List.replicate (64 - k0.length) 0
  sha256Bytes ((kp.map (fun b => Nat.xor b 92)) ++
    sha256Bytes ((kp.map (fun b => Nat.xor b 54)) ++ msg))

/-- hmacSha256Hex models Python
`hmac.new(key, msg, hashlib.sha256).hexdigest()`. -/
def hmacSha256Hex (key msg : List Nat) : String :=
  bytesHex (hmacSha256 key msg)

/-- utf8Char is the UTF-8 encoding of one character. -/
def utf8Char (c : Char) : List Nat :=
  let n := c.toNat
  if n < 128 then [n]
  else if n < 2048 then [192 + n / 64, 128 + n % 64]
  else if n < 65536 then [224 + n / 4096, 128 + (n / 64) % 64, 128 + n % 64]
  else [240 + n / 262144, 128 + (n / 4096) % 64, 128 + (n / 64) % 64,
        128 + n % 64]

/-- utf8Bytes models Python `s.encode("utf-8")`. -/
def utf8Bytes (s : String) : List Nat :=
  (s.data.map utf8Char).flatten

/-- freshdesk_verify_signature is
`FreshdeskWebhookHandler.verify_signature` (freshdesk/webhook.py lines
31-59): a falsy secret (None or the empty string) skips verification and
returns True; otherwise the presented signature is compared (via
`hmac.compare_digest`, modelled as string equality) against the bare hex
HMAC-SHA256 of the raw payload under the UTF-8 encoded secret. Nothing in
the `try` block can raise, so the `except` branch is dead. -/
def freshdesk_verify_signature (webhook_secret : Option String)
    (payload : List Nat) (signature : String) : Bool :=
  match webhook_secret with
  | none => true
  | some s =>
    if s == "" then true
    else signature == hmacSha256Hex (utf8Bytes s) payload

/-- zendesk_verify_signature is `ZendeskWebhookHandler.verify_signature`
(zendesk/webhook.py lines 31-61): a falsy secret skips verification;
otherwise `message = timestamp + payload.decode("utf-8")` and the presented
signature is compared against the hex HMAC-SHA256 of the UTF-8 encoding of
that message. The raw body is modelled as the string it decodes from, so
the dead `except` branch (reachable in Python only for non-UTF-8 bodies) is
not modelled. No clock is consulted anywhere in the function. -/
def zendesk_verify_signature (webhook_secret : Option String)
    (payload : String) (signature : String) (timestamp : String) : Bool :=
  match webhook_secret with
  | none => true
  | some s =>
    if s == "" then true
    else signature == hmacSha256Hex (utf8Bytes s)
      (utf8Bytes (timestamp ++ payload))

/-- verify_webhook_signature is the helper of the same name in
middleware.py lines 197-209: it compares `"sha256=" + hexdigest` against
the presented signature, accepting only the prefixed form. -/
def verify_webhook_signature (payload : List Nat) (signature : String)
    (secret : String) : Bool :=
  ("sha256=" ++ hmacSha256Hex (utf8Bytes secret) payload) == signature

/-- Modelled from the spec: section 4.1 Simple HMAC contract, which the
claim asserts the Freshdesk handler implements - the signature is
`hex(HMAC-SHA256(secret, rawBody))`, "optionally prefixed
(sha256= + hex)". -/
def specSimpleHmacVerify (secret : String) (payload : List Nat)
    (signature : String) : Bool :=
  signature == hmacSha256Hex (utf8Bytes secret) payload ||
    signature == "sha256=" ++ hmacSha256Hex (utf8Bytes secret) payload

/-- decDigit? reads one decimal digit. -/
def decDigit? (c : Char) : Option Nat :=
  if 48 ≤ c.toNat && c.toNat ≤ 57 then some (c.toNat - 48) else none

/-- strToNatAux folds decimal digits into a number. -/
def strToNatAux : List Char → Nat → Option Nat
  | [], acc => some acc
  | c :: rest, acc =>
    match decDigit? c with
    | some d => strToNatAux rest (acc * 10 + d)
    | none => none

/-- strToNat? parses a non-empty all-digit string as a natural number. -/
def strToNat? (s : String) : Option Nat :=
  match s.data with
  | [] => none
  | l => strToNatAux l 0

/-- Modelled from the spec: section 4.2 - the Timestamped HMAC verifier
"additionally rejects timestamps older than a configurable skew window to
prevent replay". A timestamp header carrying the epoch second `t` is fresh
at time `now` under skew window `skew` when `now - t ≤ skew`. -/
def specTimestampFresh (now skew : Int) (timestamp : String) : Bool :=
  match strToNat? timestamp with
  | some t => decide (now - Int.ofNat t ≤ skew)
  | none => false

/-- Modelled from the spec: sections 3 (RateWindow) and 4.4 - a rule may
execute at most `max_executions_per_hour` times in any trailing 60-minute
window, so execution is permitted exactly when the count of completed
executions inside the window `(now - 3600, now]` is still below the
ceiling. -/
def slidingWindowAllowed (completedTimes : List Int) (maxPerHour : Nat)
    (now : Int) : Bool :=
  (completedTimes.filter (fun t => now - 3600 < t && t ≤ now)).length <
    maxPerHour

/-- aDefault is a fallback Action for positional list access in statements. -/
def aDefault : Action :=
  { platform := none, actionType := none, params := [] }

/-- arDefault is a fallback ActionRecord for positional list access. -/
def arDefault : ActionRecord :=
  { action := aDefault, status := "", result := none, error := none }

/-- actSlack is a concrete first action for the scenarios. -/
def actSlack : Action :=
  { platform := some "slack", actionType := some "send_message", params := [] }

/-- actTrello is a concrete second action for the scenarios. -/
def actTrello : Action :=
  { platform := some "trello", actionType := some "create_card", params := [] }

/-- envOk is an environment in which every action and all bookkeeping
succeed. -/
def envOk : Env :=
  { execAction := fun _ => Except.ok Value.vNull,
    postFailure := fun _ => none }

/-- envFailFirst is an environment in which the first scenario action
raises and everything else succeeds. -/
def envFailFirst : Env :=
  { execAction := fun a =>
      if a == actSlack then Except.error "boom" else Except.ok Value.vNull,
    postFailure := fun _ => none }

/-- ruleTwoActions is a concrete active, enabled rule with two actions. -/
def ruleTwoActions : Rule :=
  { id := 1, user_id := 7, status := RuleStatus.active, is_enabled := true,
    trigger_platform := "zendesk", trigger_event := "ticket_created",
    trigger_conditions := [], actions := [actSlack, actTrello],
    max_executions_per_hour := 100, execution_count := 0,
    last_executed_at := none, last_execution_status := none,
    last_execution_error := none, deleted_at := none }

/-- stOne is an engine state whose database holds only ruleTwoActions. -/
def stOne : EngineState :=
  { execution_cache := [], nextId := 0, db := [ruleTwoActions] }

/-- ruleRate is a concrete rule with one action and
`max_executions_per_hour = 2`, as in the spec's rate-limit scenario. -/
def ruleRate : Rule :=
  { id := 2, user_id := 7, status := RuleStatus.active, is_enabled := true,
    trigger_platform := "zendesk", trigger_event := "ticket_created",
    trigger_conditions := [], actions := [actSlack],
    max_executions_per_hour := 2, execution_count := 0,
    last_executed_at := none, last_execution_status := none,
    last_execution_error := none, deleted_at := none }

/-- stRate is a fresh engine state whose database holds only ruleRate. -/
def stRate : EngineState :=
  { execution_cache := [], nextId := 0, db := [ruleRate] }

/-- trig fires one ticket_created trigger event at time t in the envOk
environment. -/
def trig (st : EngineState) (t : Int) : List Nat × EngineState :=
  process_trigger envOk st "zendesk" "ticket_created" [] t

/-- stR1 is the state after a trigger at t = 0 (one execution). -/
def stR1 : EngineState := (trig stRate 0).2

/-- stR2 is the state after a further trigger at t = 10 (one execution). -/
def stR2 : EngineState := (trig stR1 10).2

/-- stR3 is the state after a further trigger at t = 20 (rate-limited). -/
def stR3 : EngineState := (trig stR2 20).2

/-- stR4 is the state after a further trigger at t = 4000 (one execution,
more than an hour after the previous one). -/
def stR4 : EngineState := (trig stR3 4000).2

/-- ruleRateAfter is the ruleRate database row after the four triggers. -/
def ruleRateAfter : Rule := (lookupRule stR4.db 2).getD ruleRate

/-- gtTwo is the condition value of the spec's numeric-operator example:
the dict with operator greater_than and value 2. -/
def gtTwo : CondValue := CondValue.opd (some "greater_than") (Value.vInt 2)

/-- fdSecret is a concrete Freshdesk webhook secret. -/
def fdSecret : String := "topsecret"

/-- fdBody is a concrete raw webhook body. -/
def fdBody : List Nat := utf8Bytes "hello"

/-- fdDigest is the bare hex HMAC-SHA256 of fdBody under fdSecret. -/
def fdDigest : String := hmacSha256Hex (utf8Bytes fdSecret) fdBody

/-- zdSecret is a concrete Zendesk webhook secret. -/
def zdSecret : String := "zsecret"

/-- zdBody is a concrete raw webhook body (as decoded text). -/
def zdBody : String := "payload-body"

/-- zdTs is a concrete, very old timestamp header value (epoch second 0). -/
def zdTs : String := "0"

/-- zdSig is the valid Zendesk signature for zdBody at timestamp zdTs. -/
def zdSig : String :=
  hmacSha256Hex (utf8Bytes zdSecret) (utf8Bytes (zdTs ++ zdBody))

/-- Sanity check of the hash embedding against the FIPS 180-2 test vector
for SHA-256 of "abc". -/
theorem sha256_vector_abc :
    bytesHex (sha256Bytes (utf8Bytes "abc")) =
      "ba7816bf8f01cfea414140de5dae2223b00361a396177a9cb410ff61f20015ad" := by
  decide

/-- Sanity check of the HMAC embedding against the RFC 2202-style test
vector HMAC-SHA256("key", "The quick brown fox jumps over the lazy dog"). -/
theorem hmac_vector_fox :
    hmacSha256Hex (utf8Bytes "key")
      (utf8Bytes "The quick brown fox jumps over the lazy dog") =
      "f7bc83f430538424b13298e6aa6fb143ef4d59a14946175997479dbc2d1a3cd8" := by
  decide

/-- Condition evaluation of a non-empty map splits into the head condition
and the remaining conditions. -/
theorem evaluate_conditions_cons (x : String × CondValue) (rest : Conditions)
    (p : Payload) :
    evaluate_conditions (x :: rest) p =
      (evaluate_conditions [x] p && evaluate_conditions rest p) := by
  obtain ⟨k, cv⟩ := x
  cases hl : lookupP p k with
  | none => simp [evaluate_conditions, evalConditionsCore, hl]
  | some actual =>
    cases hc : condHolds actual cv with
    | error e => simp [evaluate_conditions, evalConditionsCore, hl, hc]
    | ok b =>
      cases b with
      | false => simp [evaluate_conditions, evalConditionsCore, hl, hc]
      | true => simp [evaluate_conditions, evalConditionsCore, hl, hc]

/-- C6: an empty or absent condition map matches unconditionally; a listed
field missing from the event payload forces a non-match; and the evaluator
has conjunctive semantics - the whole map matches exactly when every single
listed condition matches on its own. -/
theorem C6_condition_semantics (c : Conditions) (p : Payload) :
    evaluate_conditions [] p = true ∧
    (∀ k cv, (k, cv) ∈ c → lookupP p k = none →
      evaluate_conditions c p = false) ∧
    (evaluate_conditions c p = true ↔
      ∀ kcv ∈ c, evaluate_conditions [kcv] p = true) := by
  refine ⟨rfl, ?_, ?_⟩
  · intro k cv hmem hnone
    induction c with
    | nil => cases hmem
    | cons x rest ih =>
      rw [evaluate_conditions_cons]
      rcases List.mem_cons.mp hmem with h | h
      · subst h
        have hx : evaluate_conditions [(k, cv)] p = false := by
          simp [evaluate_conditions, evalConditionsCore, hnone]
        simp [hx]
      · simp [ih h]
  · induction c with
    | nil => simp [evaluate_conditions, evalConditionsCore]
    | cons x rest ih =>
      rw [evaluate_conditions_cons]
      simp only [Bool.and_eq_true, List.mem_cons]
      constructor
      · rintro ⟨hx, hr⟩ kcv hkcv
        rcases hkcv with h | h
        · subst h; exact hx
        · exact ih.mp hr kcv h
      · intro hall
        exact ⟨hall x (Or.inl rfl), ih.mpr (fun kcv h => hall kcv (Or.inr h))⟩

/-- C6 witness: the conjunction instantiated at a concrete payload - the
empty condition map matches it. -/
theorem C6_witness :
    evaluate_conditions [] [("priority", Value.vStr "high")] = true :=
  (C6_condition_semantics [] [("priority", Value.vStr "high")]).1

/-- C8: condition evaluation is total (its result is one of the two
booleans) and fail-closed - whenever the evaluation body raises, the
enclosing handler turns the error into a non-match, so no exception ever
reaches the caller of _evaluate_conditions. -/
theorem C8_total_and_fail_closed (c : Conditions) (p : Payload) :
    (evaluate_conditions c p = true ∨ evaluate_conditions c p = false) ∧
    (∀ e, evalConditionsCore c p = Except.error e →
      evaluate_conditions c p = false) := by
  constructor
  · cases h : evaluate_conditions c p
    · exact Or.inr rfl
    · exact Or.inl rfl
  · intro e h
    simp [evaluate_conditions, h]

/-- C8 witness: a contains-condition whose stored value is an int makes the
Python membership test raise TypeError; evaluation nevertheless returns
false. -/
theorem C8_witness :
    evalConditionsCore [("f", CondValue.opd (some "contains") (Value.vInt 5))]
      [("f", Value.vStr "abc")] =
      Except.error "TypeError: in requires string as left operand" ∧
    evaluate_conditions
      [("f", CondValue.opd (some "contains") (Value.vInt 5))]
      [("f", Value.vStr "abc")] = false := by
  refine ⟨by rfl, ?_⟩
  exact (C8_total_and_fail_closed
    [("f", CondValue.opd (some "contains") (Value.vInt 5))]
    [("f", Value.vStr "abc")]).2
    "TypeError: in requires string as left operand" (by rfl)

/-- Unfolding of condHolds at the greater_than operator. -/
theorem condHolds_gt (actual condV : Value) :
    condHolds actual (CondValue.opd (some "greater_than") condV) =
      match asNum actual with
      | some m => pyGtNum m condV
      | none => Except.ok false := by
  rfl

/-- Unfolding of condHolds at the less_than operator. -/
theorem condHolds_lt (actual condV : Value) :
    condHolds actual (CondValue.opd (some "less_than") condV) =
      match asNum actual with
      | some m => pyLtNum m condV
      | none => Except.ok false := by
  rfl

/-- C7: the numeric operators match only when the event value is numeric
(Python int or bool, floats being modelled as ints) and the comparison
holds; in the spec's example, priority 3 matches greater_than 2, priority 2
does not, and the non-numeric priority "high" is a non-match whose
evaluation completes without raising (the core returns ok false, not an
error). -/
theorem C7_numeric_operator_semantics :
    (∀ (p : Payload) (k : String) (condV actual : Value),
      lookupP p k = some actual →
      evaluate_conditions [(k, CondValue.opd (some "greater_than") condV)] p
        = true →
      ∃ m n, asNum actual = some m ∧ asNum condV = some n ∧ m > n) ∧
    (∀ (p : Payload) (k : String) (condV actual : Value),
      lookupP p k = some actual →
      evaluate_conditions [(k, CondValue.opd (some "less_than") condV)] p
        = true →
      ∃ m n, asNum actual = some m ∧ asNum condV = some n ∧ m < n) ∧
    evaluate_conditions [("priority", gtTwo)] [("priority", Value.vInt 3)]
      = true ∧
    evaluate_conditions [("priority", gtTwo)] [("priority", Value.vInt 2)]
      = false ∧
    evaluate_conditions [("priority", gtTwo)] [("priority", Value.vStr "high")]
      = false ∧
    evalConditionsCore [("priority", gtTwo)]
      [("priority", Value.vStr "high")] = Except.ok false := by
  refine ⟨?_, ?_, by decide, by decide, by decide, by rfl⟩
  · intro p k condV actual hl hm
    simp only [evaluate_conditions, evalConditionsCore, hl, condHolds_gt] at hm
    cases ha : asNum actual with
    | none => simp [ha] at hm
    | some m =>
      simp only [ha, pyGtNum] at hm
      cases hv : asNum condV with
      | none => simp [hv] at hm
      | some n =>
        by_cases hmn : m > n
        · exact ⟨m, n, rfl, rfl, hmn⟩
        · simp [hv, hmn, evalConditionsCore] at hm
  · intro p k condV actual hl hm
    simp only [evaluate_conditions, evalConditionsCore, hl, condHolds_lt] at hm
    cases ha : asNum actual with
    | none => simp [ha] at hm
    | some m =>
      simp only [ha, pyLtNum] at hm
      cases hv : asNum condV with
      | none => simp [hv] at hm
      | some n =>
        by_cases hmn : m < n
        · exact ⟨m, n, rfl, rfl, hmn⟩
        · simp [hv, hmn, evalConditionsCore] at hm

/-- C7 witness: the greater_than clause applied at the spec's concrete
example, priority 3 against value 2. -/
theorem C7_witness :
    ∃ m n, asNum (Value.vInt 3) = some m ∧ asNum (Value.vInt 2) = some n ∧
      m > n :=
  C7_numeric_operator_semantics.1 [("priority", Value.vInt 3)] "priority"
    (Value.vInt 2) (Value.vInt 3) (by decide) (by decide)

/-- C9: a rule selected for execution by the matcher always carries the
trigger platform and event of the incoming event, is active, and is
enabled; hence no inactive or disabled rule is ever handed to the
executor (process_trigger runs exactly the rules find_matching_rules
returns). -/
theorem C9_only_active_enabled (db : List Rule) (platform event : String)
    (payload : Payload) (now : Int) (r : Rule)
    (hr : r ∈ find_matching_rules db platform event payload now) :
    r.trigger_platform = platform ∧ r.trigger_event = event ∧
      r.status = RuleStatus.active ∧ r.is_enabled = true := by
  have h1 : r ∈ db.filter (fun x => ruleMatchesTrigger x platform event) :=
    (List.mem_filter.mp hr).1
  have h2 : ruleMatchesTrigger r platform event = true :=
    (List.mem_filter.mp h1).2
  simp only [ruleMatchesTrigger, Bool.and_eq_true, beq_iff_eq] at h2
  exact ⟨h2.1.1.1.1, h2.1.1.1.2, h2.1.1.2, h2.1.2⟩

/-- C9 witness: the matcher applied to a database holding one active,
enabled rule selects it, and the theorem yields its activity. -/
theorem C9_witness :
    ruleTwoActions ∈
      find_matching_rules [ruleTwoActions] "zendesk" "ticket_created" [] 0 ∧
    ruleTwoActions.status = RuleStatus.active := by
  refine ⟨by decide, ?_⟩
  exact (C9_only_active_enabled [ruleTwoActions] "zendesk" "ticket_created"
    [] 0 ruleTwoActions (by decide)).2.2.1

/-- The action loop produces exactly one record per action. -/
theorem runActions_length (f : Action → Except String Value)
    (l : List Action) : (runActions f l).length = l.length := by
  induction l with
  | nil => rfl
  | cons a rest ih =>
    simp only [runActions]
    cases f a <;> simp [ih]

/-- The i-th record of the action loop is the outcome of the i-th action. -/
theorem runActions_getD (f : Action → Except String Value)
    (l : List Action) (i : Nat) (hi : i < l.length) :
    (runActions f l).getD i arDefault =
      match f (l.getD i aDefault) with
      | Except.ok r =>
        { action := l.getD i aDefault, status := "success",
          result := some r, error := none }
      | Except.error e =>
        { action := l.getD i aDefault, status := "failed",
          result := none, error := some e } := by
  induction l generalizing i with
  | nil => cases hi
  | cons a rest ih =>
    cases i with
    | zero =>
      simp only [runActions, List.getD_cons_zero]
    | succ j =>
      have hj : j < rest.length := Nat.lt_of_succ_lt_succ hi
      simp only [runActions, List.getD_cons_succ]
      exact ih j hj

/-- The finalized execution record of execute_rule carries the action-loop
results with status completed, whether or not the bookkeeping raised. -/
theorem execute_rule_execution (env : Env) (st : EngineState) (rule : Rule)
    (payload : Payload) (now : Int) :
    (execute_rule env st rule payload now).execution =
      { rule_id := rule.id, trigger_data := payload,
        execution_id := st.nextId, started_at := now,
        completed_at := some now, status := "completed",
        error_message := none,
        actions_executed := runActions env.execAction rule.actions } := by
  unfold execute_rule
  cases env.postFailure rule.id <;> rfl

/-- C3: every action of a rule is attempted exactly once in list order -
the execution's per-action result list has one entry per action, the i-th
entry belongs to the i-th action, and its status records that action's own
outcome (success when the action layer returned, failed when it raised),
independently of the outcomes of the other actions. -/
theorem C3_every_action_attempted (env : Env) (st : EngineState)
    (rule : Rule) (payload : Payload) (now : Int) (i : Nat)
    (hi : i < rule.actions.length) :
    (execute_rule env st rule payload now).execution.actions_executed.length
      = rule.actions.length ∧
    ((execute_rule env st rule payload now).execution.actions_executed.getD
      i arDefault).action = rule.actions.getD i aDefault ∧
    (((execute_rule env st rule payload now).execution.actions_executed.getD
        i arDefault).status = "success" ↔
      ∃ v, env.execAction (rule.actions.getD i aDefault) = Except.ok v) ∧
    (((execute_rule env st rule payload now).execution.actions_executed.getD
        i arDefault).status = "failed" ↔
      ∃ e, env.execAction (rule.actions.getD i aDefault) = Except.error e)
    := by
  rw [execute_rule_execution]
  refine ⟨runActions_length env.execAction rule.actions, ?_, ?_, ?_⟩
  · rw [runActions_getD env.execAction rule.actions i hi]
    cases env.execAction (rule.actions.getD i aDefault) <;> rfl
  · rw [runActions_getD env.execAction rule.actions i hi]
    cases h : env.execAction (rule.actions.getD i aDefault) with
    | error e => simp
    | ok v => simp
  · rw [runActions_getD env.execAction rule.actions i hi]
    cases h : env.execAction (rule.actions.getD i aDefault) with
    | error e => simp
    | ok v => simp

/-- C3 witness: in the two-action scenario where the first action fails,
the second action (index 1) is still attempted and recorded with its own
success outcome. -/
theorem C3_witness :
    1 < ruleTwoActions.actions.length ∧
    ((execute_rule envFailFirst stOne ruleTwoActions [] 0).execution.actions_executed.getD
      1 arDefault).action = ruleTwoActions.actions.getD 1 aDefault := by
  refine ⟨by decide, ?_⟩
  exact (C3_every_action_attempted envFailFirst stOne ruleTwoActions [] 0 1
    (by decide)).2.1

/-- Updating rows by id commutes with the first-row lookup when the update
preserves the id column. -/
theorem lookupRule_updateRule (db : List Rule) (rid : Nat) (f : Rule → Rule)
    (hid : ∀ r, (f r).id = r.id) :
    lookupRule (updateRule db rid f) rid = (lookupRule db rid).map f := by
  induction db with
  | nil => rfl
  | cons r rest ih =>
    simp only [updateRule, List.map_cons] at ih ⊢
    by_cases h : (r.id == rid) = true
    · have hf : ((f r).id == rid) = true := by rw [hid r]; exact h
      simp [lookupRule, h, hf]
    · rw [if_neg h]
      show (if (r.id == rid) = true then some r
            else lookupRule
              (List.map (fun x => if (x.id == rid) = true then f x else x) rest)
              rid)
          = Option.map f
            (if (r.id == rid) = true then some r else lookupRule rest rid)
      rw [if_neg h, if_neg h]
      exact ih

/-- The last_execution_status column after an id-preserving row update. -/
theorem lookupRule_updateRule_status (db : List Rule) (rid : Nat)
    (f : Rule → Rule) (hid : ∀ r, (f r).id = r.id) (r0 : Rule)
    (hdb : lookupRule db rid = some r0) :
    (lookupRule (updateRule db rid f) rid).map
      (fun r => r.last_execution_status)
      = some ((f r0).last_execution_status) := by
  rw [lookupRule_updateRule db rid f hid, hdb]
  rfl

/-- C1 counterexample: a rule with two actions whose first action raises -
the per-action record list reads failed then success, yet the finalized
Execution status is "completed" (not "failed") and the rule row's
last_execution_status is updated to "success" (not "failure"), refuting
the claim at this concrete input. -/
theorem C1_counterexample :
    ((execute_rule envFailFirst stOne ruleTwoActions [] 0).execution.actions_executed.map
      (fun a => a.status)) = ["failed", "success"] ∧
    (execute_rule envFailFirst stOne ruleTwoActions [] 0).execution.status
      = "completed" ∧
    (lookupRule (execute_rule envFailFirst stOne ruleTwoActions [] 0).state.db
      1).map (fun r => r.last_execution_status) = some (some "success") := by
  refine ⟨by decide, by decide, by decide⟩

/-- C1 amended: per-action failures are recorded only inside the per-action
results; the finalized Execution status is always "completed" once the
action loop has run, and the rule row's last_execution_status becomes
"success" whenever the post-loop statistics bookkeeping succeeds,
regardless of any failed actions; "failed" is recorded on the rule row
exactly when that bookkeeping itself raises. -/
theorem C1_amended (env : Env) (st : EngineState) (rule : Rule)
    (payload : Payload) (now : Int) (r0 : Rule)
    (hdb : lookupRule st.db rule.id = some r0) :
    (execute_rule env st rule payload now).execution.status = "completed" ∧
    (env.postFailure rule.id = none →
      (lookupRule (execute_rule env st rule payload now).state.db
        rule.id).map (fun r => r.last_execution_status)
        = some (some "success")) ∧
    (∀ e, env.postFailure rule.id = some e →
      (lookupRule (execute_rule env st rule payload now).state.db
        rule.id).map (fun r => r.last_execution_status)
        = some (some "failed")) := by
  refine ⟨?_, ?_, ?_⟩
  · rw [execute_rule_execution]
  · intro hpf
    unfold execute_rule
    rw [hpf]
    exact lookupRule_updateRule_status st.db rule.id
      (fun r =>
        { r with
            execution_count := rule.execution_count + 1
            last_executed_at := some now
            last_execution_status := some "success" })
      (fun r => rfl) r0 hdb
  · intro e hpf
    unfold execute_rule
    rw [hpf]
    exact lookupRule_updateRule_status st.db rule.id
      (fun r =>
        { r with
            last_execution_status := some "failed"
            last_execution_error := some e })
      (fun r => rfl) r0 hdb

/-- C1 witness: the amended theorem applied in the all-success environment
to the concrete one-rule state. -/
theorem C1_witness :
    lookupRule stOne.db ruleTwoActions.id = some ruleTwoActions ∧
    (execute_rule envOk stOne ruleTwoActions [] 0).execution.status
      = "completed" := by
  refine ⟨by decide, ?_⟩
  exact (C1_amended envOk stOne ruleTwoActions [] 0 ruleTwoActions
    (by decide)).1

/-- C2 counterexample: running the engine itself on ruleRate
(max_executions_per_hour = 2) with triggers at t = 0, 10, 20 and 4000
produces completed executions at 0, 10 and 4000 (t = 20 is rate-limited);
at t = 4300 only one completed execution (the one at 4000) lies in the
trailing 60-minute window, so a sliding window would permit execution, yet
check_rate_limit rejects the resulting rule row because its lifetime
execution_count (3) has reached max_executions_per_hour - refuting the
claimed sliding-window equivalence at this concrete reachable state. -/
theorem C2_counterexample :
    (trig stRate 0).1.length = 1 ∧ (trig stR1 10).1.length = 1 ∧
    (trig stR2 20).1.length = 0 ∧ (trig stR3 4000).1.length = 1 ∧
    slidingWindowAllowed [0, 10, 4000] 2 4300 = true ∧
    check_rate_limit ruleRateAfter 4300 = false := by
  refine ⟨by decide, by decide, by decide, by decide, by decide, by decide⟩

/-- C2 amended: the rate limiter is a heuristic over two rule counters, not
a sliding window - it permits execution exactly when either the rule has
never executed, or its last execution is more than 60 minutes old, or its
lifetime execution_count is still below max_executions_per_hour. The
spec's concrete burst scenario nevertheless holds from a fresh rule: with
max_executions_per_hour = 2, three triggers within one minute yield two
executions and one rate-limited skip. -/
theorem C2_amended :
    (∀ (r : Rule) (now : Int),
      check_rate_limit r now = true ↔
        (∀ t, r.last_executed_at = some t → now - 3600 < t →
          r.execution_count < r.max_executions_per_hour)) ∧
    (trig stRate 0).1.length = 1 ∧
    (trig stR1 10).1.length = 1 ∧
    (trig stR2 20).1.length = 0 := by
  refine ⟨?_, by decide, by decide, by decide⟩
  intro r now
  unfold check_rate_limit
  cases hl : r.last_executed_at with
  | none =>
    simp only
    constructor
    · intro _ t ht
      cases ht
    · intro _
      trivial
  | some t =>
    simp only
    by_cases ht : t > now - 3600
    · rw [if_pos ht]
      by_cases hc : r.execution_count ≥ r.max_executions_per_hour
      · rw [if_pos hc]
        constructor
        · intro hfalse
          cases hfalse
        · intro hall
          exact absurd (hall t rfl ht) (Nat.not_lt.mpr hc)
      · rw [if_neg hc]
        constructor
        · intro _ u hu h2
          exact Nat.lt_of_not_le hc
        · intro _
          trivial
    · rw [if_neg ht]
      constructor
      · intro _ u hu h2
        injection hu with hu2
        subst hu2
        exact absurd h2 ht
      · intro _
        trivial

/-- C2 witness: the amended characterization applied to the fresh ruleRate
at time 0 - a never-executed rule is allowed to run. -/
theorem C2_witness : check_rate_limit ruleRate 0 = true :=
  (C2_amended.1 ruleRate 0).mpr (fun t ht h2 => by decide)

/-- Looking a key up after erasing one: the erased key is gone, the others
are untouched. -/
theorem lookupA_eraseA (l : List (Nat × RuleExecution)) (k i : Nat) :
    lookupA (eraseA l k) i = if i = k then none else lookupA l i := by
  induction l with
  | nil => simp [eraseA, lookupA]
  | cons hd tl ih =>
    obtain ⟨a, v⟩ := hd
    by_cases hak : (a == k) = true
    · have hak2 : a = k := beq_iff_eq.mp hak
      simp only [eraseA, hak, if_true]
      rw [ih]
      by_cases hik : i = k
      · simp [hik]
      · have haif : (a == i) = false := by
          subst hak2
          exact beq_eq_false_iff_ne.mpr (fun hh => hik hh.symm)
        simp [hik, lookupA, haif]
    · have hf : (a == k) = false := by simpa using hak
      simp only [eraseA, hf, Bool.false_eq_true, if_false]
      by_cases hai : (a == i) = true
      · have hik : ¬ i = k := fun hh =>
          hak (beq_iff_eq.mpr ((beq_iff_eq.mp hai).trans hh))
        simp [lookupA, hai, hik]
      · have haif : (a == i) = false := by simpa using hai
        by_cases hik : i = k
        · subst hik
          simp [lookupA, haif, ih]
        · simp [lookupA, haif, hik, ih]

/-- Whatever the bookkeeping outcome, execute_rule leaves the cache equal
to the incoming cache with the fresh execution id erased (the finally
block always runs). -/
theorem execute_rule_cache (env : Env) (st : EngineState) (rule : Rule)
    (payload : Payload) (now : Int) :
    (execute_rule env st rule payload now).state.execution_cache =
      eraseA st.execution_cache st.nextId := by
  unfold execute_rule
  cases env.postFailure rule.id <;> simp [eraseA]

/-- execute_rule returns an id only on the bookkeeping success path, and
that id is the fresh one it drew. -/
theorem execute_rule_returnedId (env : Env) (st : EngineState) (rule : Rule)
    (payload : Payload) (now : Int) (i : Nat)
    (h : (execute_rule env st rule payload now).returnedId = some i) :
    i = st.nextId := by
  unfold execute_rule at h
  cases hp : env.postFailure rule.id with
  | none =>
    rw [hp] at h
    simp only at h
    exact (Option.some.inj h).symm
  | some e =>
    rw [hp] at h
    simp at h

/-- An id absent from the cache stays absent across any run of the rule
loop (each step only erases its own fresh id). -/
theorem execList_preserves_none (env : Env) (payload : Payload) (now : Int)
    (rules : List Rule) (st : EngineState) (i : Nat)
    (h : lookupA st.execution_cache i = none) :
    lookupA (execList env payload now rules st).2.execution_cache i
      = none := by
  induction rules generalizing st with
  | nil => exact h
  | cons r rest ih =>
    have h1 : lookupA
        (execute_rule env st r payload now).state.execution_cache i = none := by
      rw [execute_rule_cache, lookupA_eraseA]
      by_cases hik : i = st.nextId
      · simp [hik]
      · simp [hik, h]
    cases hret : (execute_rule env st r payload now).returnedId with
    | some j =>
      simp only [execList, hret]
      exact ih _ h1
    | none =>
      simp only [execList, hret]
      exact ih _ h1

/-- Every execution id the rule loop hands back is absent from the final
cache. -/
theorem execList_returned_not_cached (env : Env) (payload : Payload)
    (now : Int) (rules : List Rule) (st : EngineState) (i : Nat)
    (h : i ∈ (execList env payload now rules st).1) :
    lookupA (execList env payload now rules st).2.execution_cache i
      = none := by
  induction rules generalizing st with
  | nil => simp [execList] at h
  | cons r rest ih =>
    cases hret : (execute_rule env st r payload now).returnedId with
    | none =>
      simp only [execList, hret] at h ⊢
      exact ih _ h
    | some j =>
      simp only [execList, hret] at h ⊢
      rcases List.mem_cons.mp h with hh | hh
      · subst hh
        have hj : i = st.nextId :=
          execute_rule_returnedId env st r payload now i hret
        have h1 : lookupA
            (execute_rule env st r payload now).state.execution_cache i
            = none := by
          rw [execute_rule_cache, lookupA_eraseA]
          simp [hj]
        exact execList_preserves_none env payload now rest _ i h1
      · exact ih _ hh

/-- C10: once process_trigger returns, no execution id in its returned list
is still present in the execution cache - the finally block of
_execute_rule removed each record on completion, so get_execution_status
answers not-found for every id the webhook response reports. -/
theorem C10_returned_ids_not_cached (env : Env) (st : EngineState)
    (platform event : String) (payload : Payload) (now : Int) (i : Nat)
    (h : i ∈ (process_trigger env st platform event payload now).1) :
    get_execution_status
      (process_trigger env st platform event payload now).2 i = none := by
  unfold process_trigger at h ⊢
  exact execList_returned_not_cached env payload now _ st i h

/-- C10 witness: the one-rule scenario returns execution id 0 and the
status lookup for it afterwards is not-found. -/
theorem C10_witness :
    0 ∈ (process_trigger envOk stOne "zendesk" "ticket_created" [] 0).1 ∧
    get_execution_status
      (process_trigger envOk stOne "zendesk" "ticket_created" [] 0).2 0
      = none := by
  refine ⟨by decide, ?_⟩
  exact C10_returned_ids_not_cached envOk stOne "zendesk" "ticket_created"
    [] 0 0 (by decide)

/-- C4 counterexample: the claim admits the optionally prefixed form
"sha256=" + hex, but the Freshdesk handler compares only against the bare
hex digest - at this concrete secret, body and prefixed signature the spec
contract accepts while the code rejects. -/
theorem C4_counterexample :
    specSimpleHmacVerify fdSecret fdBody ("sha256=" ++ fdDigest) = true ∧
    freshdesk_verify_signature (some fdSecret) fdBody ("sha256=" ++ fdDigest)
      = false := by
  refine ⟨by decide, by decide⟩

/-- C4 amended: with a configured (non-empty) secret, simple-HMAC
verification in the Freshdesk handler accepts exactly the bare
hex(HMAC-SHA256(secret, rawBody)); the "sha256="-prefixed form is
rejected (the prefixed form is instead the only one accepted by the
separate middleware helper). The comparison is hmac.compare_digest,
modelled here as string equality. -/
theorem C4_amended (secret : String) (payload : List Nat)
    (signature : String) (hs : secret ≠ "") :
    freshdesk_verify_signature (some secret) payload signature = true ↔
      signature = hmacSha256Hex (utf8Bytes secret) payload := by
  have hb : (secret == "") = false := beq_eq_false_iff_ne.mpr hs
  simp [freshdesk_verify_signature, hb]

/-- C4 witness: the amended equivalence instantiated at the concrete
secret, body and its bare digest. -/
theorem C4_witness :
    fdSecret ≠ "" ∧
    freshdesk_verify_signature (some fdSecret) fdBody fdDigest = true := by
  refine ⟨by decide, ?_⟩
  exact (C4_amended fdSecret fdBody fdDigest (by decide)).mpr rfl

/-- C5 counterexample: the Zendesk verifier consults no clock, so a valid
signature over an arbitrarily old timestamp (epoch second 0, checked
against now = 10^9 with a one-hour skew window under which the spec
demands rejection) still verifies as true. -/
theorem C5_counterexample :
    zendesk_verify_signature (some zdSecret) zdBody zdSig zdTs = true ∧
    specTimestampFresh 1000000000 3600 zdTs = false := by
  refine ⟨by decide, by decide⟩

/-- C5 amended: with a configured (non-empty) secret, timestamped-HMAC
verification in the Zendesk handler returns true exactly when the
presented signature equals hex(HMAC-SHA256(secret, timestamp || rawBody));
the timestamp's age is never checked, so no skew window is enforced. -/
theorem C5_amended (secret : String) (payload : String)
    (signature : String) (timestamp : String) (hs : secret ≠ "") :
    zendesk_verify_signature (some secret) payload signature timestamp
      = true ↔
      signature = hmacSha256Hex (utf8Bytes secret)
        (utf8Bytes (timestamp ++ payload)) := by
  have hb : (secret == "") = false := beq_eq_false_iff_ne.mpr hs
  simp [zendesk_verify_signature, hb]

/-- C5 witness: the amended equivalence instantiated at the concrete
secret, body, timestamp and matching signature. -/
theorem C5_witness :
    zdSecret ≠ "" ∧
    zendesk_verify_signature (some zdSecret) zdBody zdSig zdTs = true := by
  refine ⟨by decide, ?_⟩
  exact (C5_amended zdSecret zdBody zdSig zdTs (by decide)).mpr rfl

end SupportOps
